import Mathlib

/-!
Shallow embedding of the koinish dependency-injection container
(`src/core.ts`): providers, the container tree, the resolution engine
(`get`/`getAsync`/`instantiate`/`construct`), provider registration
(`setProvider`), scope creation (`beginScope`) and disposal (`shutdown`).

Modelling conventions:
* A constructor reference (`Ctor<T>` / `Id<T>`) is a `CtorId`: `ref` is the
  reference identity, `name` the runtime `.name` property (two distinct
  references may share a name), `isFunction` the `typeof id === 'function'`
  test.
* JS `Map`s are association lists with `Map.set` replace-or-append
  semantics; the `resolving` `Set` is a list with insertion-order add.
* The container tree is a `World`: a list of containers addressed by
  index, with `parent` links (a scope's parent index is the container it
  was begun from).  `counter` supplies fresh object nonces, so two `new`
  invocations are observably distinct.  `events` logs cleanup
  invocations during `shutdown`.
* Asynchrony: `instantiate` returns `BuildRes.later r` for a `Promise`
  (an async factory wraps its outcome, including a thrown error, in a
  promise); synchronous `get` rejects it, `getAsync` awaits it.
* Recursion is fuel-indexed; `Err.outOfFuel` never occurs for runs the
  real program completes.
-/

namespace Koinish

/-- `Qualifier = string | symbol`; a symbol is identified by a unique
nonce plus its description (only the description shows in `String(q)`). -/
inductive Qualifier where
  | str (s : String)
  | sym (n : Nat) (desc : String)
deriving DecidableEq, Repr

/-- A constructor reference: `ref` is reference identity, `name` the
`.name` property, `isFunction` whether `typeof id === 'function'`. -/
structure CtorId where
  ref : Nat
  name : String
  isFunction : Bool := true
deriving DecidableEq, Repr

/-- Scope kinds of a provider (`'single' | 'factory' | 'scoped'`). -/
inductive ScopeKind where
  | single
  | factory
  | scoped
deriving DecidableEq, Repr

/-- Override strategy (`'error' | 'lastWins'`). -/
inductive OvStrategy where
  | error
  | lastWins
deriving DecidableEq, Repr

/-- A cleanup callback (an `onClose` hook or a `dispose`/`close`/`destroy`
method): invoking it logs `tag`; `throws` says whether it throws. -/
structure Hook where
  tag : Nat
  throws : Bool := false
deriving DecidableEq, Repr

/-- The own function-valued cleanup methods of an object, probed by
`tryAutoDispose`. -/
structure MethodTable where
  dispose : Option Hook := none
  close : Option Hook := none
  destroy : Option Hook := none
deriving DecidableEq, Repr

/-- A runtime instance: which constructor made it, a freshness nonce
(distinct `new` invocations get distinct nonces), and its cleanup
methods. -/
structure Value where
  ctorRef : Nat
  nonce : Nat
  methods : MethodTable := {}
deriving DecidableEq, Repr

/-- The body of a `useFactory` function: return a fixed value, construct
a fresh object, or resolve a dependency through the context's `get` and
then construct a fresh object. -/
inductive FactoryBody where
  | const (v : Value)
  | make (r : Nat)
  | getThenMake (dep : CtorId) (q : Option Qualifier) (r : Nat)
deriving DecidableEq, Repr

/-- A `Factory<T>`: `isAsync` marks an `async` function (its result — or
thrown error — is delivered wrapped in a promise). -/
structure FactoryFn where
  isAsync : Bool
  body : FactoryBody
deriving DecidableEq, Repr

/-- A registered provider (`Provider<T>` in the source): scope kind,
identifier, optional qualifier, the three optional construction modes,
optional explicit dependency list and optional `onClose` hook. -/
structure Provider where
  kind : ScopeKind
  id : CtorId
  qualifier : Option Qualifier := none
  useClass : Option CtorId := none
  useFactory : Option FactoryFn := none
  useValue : Option Value := none
  deps : Option (List CtorId) := none
  onClose : Option Hook := none
deriving DecidableEq, Repr

/-- A disposal-list entry (`{key, instance, close}`). -/
structure Disposable where
  key : String
  inst : Value
  close : Option Hook := none
deriving DecidableEq, Repr

/-- Errors thrown by the container, by the message they carry. -/
inductive Err where
  | overrideConflict (key : String)
  | noProvider (key : String)
  | circular (key : String)
  | syncAsync (key : String)
  | invalidProvider (key : String)
  | outOfFuel
deriving DecidableEq, Repr

/-- `StartOptions` (`allowOverride` defaults to false, `overrideStrategy`
is optional). -/
structure StartOptions where
  allowOverride : Bool := false
  overrideStrategy : Option OvStrategy := none
deriving DecidableEq, Repr

/-- Association-list lookup, mirroring `Map.get` (first — unique — match). -/
def alGet {α β : Type} [DecidableEq α] : List (α × β) → α → Option β
  | [], _ => none
  | (k', v) :: rest, k => if k' = k then some v else alGet rest k

/-- Association-list update, mirroring `Map.set`: replace the entry in
place if the key exists, append otherwise. -/
def alSet {α β : Type} [DecidableEq α] : List (α × β) → α → β → List (α × β)
  | [], k, v => [(k, v)]
  | (k', v') :: rest, k, v =>
    if k' = k then (k, v) :: rest else (k', v') :: alSet rest k v

/-- `Set.add`: append (insertion order) if absent. -/
def insertStr (l : List String) (k : String) : List String :=
  if k ∈ l then l else l ++ [k]

/-- One container of the tree (`class Container` fields). -/
structure Container where
  singles : List (String × Value) := []
  providers : List (CtorId × List (Option Qualifier × Provider)) := []
  resolving : List String := []
  parent : Option Nat := none
  scopedCache : List (String × Value) := []
  disposables : List Disposable := []
  allowOverride : Bool := false
  overrideStrategy : OvStrategy := .error
deriving DecidableEq, Repr

/-- The container tree plus the ambient construction counter and the log
of cleanup invocations. -/
structure World where
  containers : List Container
  counter : Nat := 0
  events : List Nat := []
deriving DecidableEq, Repr

/-- Ambient environment: optional reflection metadata
(`design:paramtypes` per constructor reference) and each constructor's
cleanup-method table. -/
structure Env where
  meta : Nat → List CtorId := fun _ => []
  ctorMethods : Nat → MethodTable := fun _ => {}

/-- The container at index `cid` (a default empty container when out of
range; constructed worlds never go out of range). -/
def getD (w : World) (cid : Nat) : Container :=
  w.containers.getD cid {}

/-- Replace the container at index `cid`. -/
def setC (w : World) (cid : Nat) (c : Container) : World :=
  { w with containers := w.containers.set cid c }

/-- Update the container at index `cid`. -/
def updateC (w : World) (cid : Nat) (f : Container → Container) : World :=
  setC w cid (f (getD w cid))

/-- `keyOf`: the diagnostic string key
`` `${(id as any).name || '[[ctor]]'}${q === undefined ? '' : '::' + String(q)}` ``. -/
def keyOf (id : CtorId) (q : Option Qualifier) : String :=
  (if id.name = "" then "[[ctor]]" else id.name) ++
    (match q with
     | none => ""
     | some (.str s) => "::" ++ s
     | some (.sym _ d) => "::Symbol(" ++ d ++ ")")

/-- `getProvider`: exact (identifier, qualifier) lookup in the local
registry, else the parent chain.  Fuel bounds the parent walk (parents
have strictly smaller indices, so `cid+1` is always enough). -/
def getProviderIn (w : World) : Nat → Nat → CtorId → Option Qualifier → Option Provider
  | 0, _, _, _ => none
  | fuel+1, cid, id, q =>
    match (alGet (getD w cid).providers id).bind (fun inner => alGet inner q) with
    | some p => some p
    | none =>
      match (getD w cid).parent with
      | some par => getProviderIn w fuel par id q
      | none => none

/-- `root()`: follow parent links to the root container. -/
def rootOf (w : World) : Nat → Nat → Nat
  | 0, cid => cid
  | fuel+1, cid =>
    match (getD w cid).parent with
    | some par => rootOf w fuel par
    | none => cid

/-- `new ctor(...)`: a fresh instance of constructor `r` (fresh nonce
from the world counter, methods from the class). -/
def mkObj (env : Env) (w : World) (r : Nat) : Value × World :=
  (⟨r, w.counter, env.ctorMethods r⟩, { w with counter := w.counter + 1 })

/-- `cacheAndTrack`: cache a `single` in the root's singleton cache, a
`scoped` in this scope's cache, and record a disposable unless the kind
is `factory`. -/
def cacheAndTrack (w : World) (cid : Nat) (p : Provider) (k : String) (v : Value) : World :=
  let w1 := if p.kind = ScopeKind.single then
      updateC w (rootOf w (cid+1) cid) (fun c => { c with singles := alSet c.singles k v })
    else w
  let w2 := if p.kind = ScopeKind.scoped then
      updateC w1 cid (fun c => { c with scopedCache := alSet c.scopedCache k v })
    else w1
  if p.kind ≠ ScopeKind.factory then
    updateC w2 cid (fun c => { c with disposables := c.disposables ++ [⟨k, v, p.onClose⟩] })
  else w2

deriving instance DecidableEq for Except

/-- What `instantiate` hands back: an immediate value or a promise
(`later`), the latter carrying the eventual outcome. -/
inductive BuildRes where
  | now (v : Value)
  | later (r : Except Err Value)
deriving DecidableEq, Repr

/-- A resolution callback bound to one container: the `get` / `getAsync`
pair (`true` selects `getAsync`). -/
def Resolver : Type :=
  Bool → World → CtorId → Option Qualifier → Except Err Value × World

/-- `deps.map(d => this.get(d))` (or `getAsync` for `constructAsync`):
resolve dependency identifiers in order, stopping at the first error. -/
def resolveDepsWith (res : Resolver) (isAsync : Bool) : World → List CtorId → Except Err (List Value) × World
  | w, [] => (.ok [], w)
  | w, d :: ds =>
    match res isAsync w d none with
    | (.error e, w1) => (.error e, w1)
    | (.ok v, w1) =>
      match resolveDepsWith res isAsync w1 ds with
      | (.error e, w2) => (.error e, w2)
      | (.ok vs, w2) => (.ok (v :: vs), w2)

/-- `construct` / `constructAsync`: consult reflection metadata; resolve
the parameter types if any, else zero-argument construction. -/
def constructWith (env : Env) (res : Resolver) (isAsync : Bool) (w : World) (ct : CtorId) : Except Err Value × World :=
  match env.meta ct.ref with
  | [] =>
    match mkObj env w ct.ref with
    | (v, w') => (.ok v, w')
  | ps =>
    match resolveDepsWith res isAsync w ps with
    | (.error e, w') => (.error e, w')
    | (.ok _, w') =>
      match mkObj env w' ct.ref with
      | (v, w'') => (.ok v, w'')

/-- Run a factory body against the resolution context. -/
def runFactoryWith (env : Env) (res : Resolver) (w : World) : FactoryBody → Except Err Value × World
  | .const v => (.ok v, w)
  | .make r =>
    match mkObj env w r with
    | (v, w') => (.ok v, w')
  | .getThenMake d dq r =>
    match res false w d dq with
    | (.error e, w1) => (.error e, w1)
    | (.ok _, w1) =>
      match mkObj env w1 r with
      | (v, w2) => (.ok v, w2)

/-- `instantiate`: `useValue` first, then `useFactory` (an async factory
wraps its outcome in a promise), then `useClass` (explicit non-empty
`deps`, else `construct`), else the invalid-provider error. -/
def instantiateWith (env : Env) (res : Resolver) (w : World) (p : Provider) : Except Err BuildRes × World :=
  match p.useValue with
  | some v => (.ok (.now v), w)
  | none =>
    match p.useFactory with
    | some f =>
      match runFactoryWith env res w f.body with
      | (.ok v, w') =>
        if f.isAsync then (.ok (.later (.ok v)), w') else (.ok (.now v), w')
      | (.error e, w') =>
        if f.isAsync then (.ok (.later (.error e)), w') else (.error e, w')
    | none =>
      match p.useClass with
      | some ct =>
        match p.deps with
        | some (d :: ds) =>
          (match resolveDepsWith res false w (d :: ds) with
           | (.error e, w') => (.error e, w')
           | (.ok _, w') =>
             match mkObj env w' ct.ref with
             | (v, w'') => (.ok (.now v), w''))
        | _ =>
          (match constructWith env res false w ct with
           | (.error e, w') => (.error e, w')
           | (.ok v, w') => (.ok (.now v), w'))
      | none => (.error (.invalidProvider (keyOf p.id p.qualifier)), w)

/-- The resolution engine: `get` (`isAsync = false`) and `getAsync`
(`isAsync = true`) on the container at `cid`, mirroring the source
step by step: local caches, provider lookup with parent fallthrough,
direct-construction fallback, eager cycle check, build, promise
handling, caching, and unmarking of the in-flight key. -/
def resolveGet (env : Env) : Nat → Bool → World → Nat → CtorId → Option Qualifier → Except Err Value × World
  | 0 => fun _ w _ _ _ => (.error .outOfFuel, w)
  | fuel+1 => fun isAsync w cid id q =>
    let k := keyOf id q
    let c := getD w cid
    match alGet c.singles k with
    | some v => (.ok v, w)
    | none =>
      match alGet c.scopedCache k with
      | some v => (.ok v, w)
      | none =>
        match getProviderIn w (cid+1) cid id q with
        | none =>
          if id.isFunction then
            constructWith env (fun a w' id' q' => resolveGet env fuel a w' cid id' q') isAsync w id
          else (.error (.noProvider k), w)
        | some p =>
          if k ∈ c.resolving then (.error (.circular k), w)
          else
            let w1 := updateC w cid (fun c0 => { c0 with resolving := insertStr c0.resolving k })
            match instantiateWith env (fun a w' id' q' => resolveGet env fuel a w' cid id' q') w1 p with
            | (.error e, w2) => (.error e, w2)
            | (.ok (.later r), w2) =>
              if isAsync then
                match r with
                | .error e => (.error e, w2)
                | .ok v =>
                  let w3 := cacheAndTrack w2 cid p k v
                  (.ok v, updateC w3 cid (fun c0 => { c0 with resolving := c0.resolving.erase k }))
              else (.error (.syncAsync k), w2)
            | (.ok (.now v), w2) =>
              let w3 := cacheAndTrack w2 cid p k v
              (.ok v, updateC w3 cid (fun c0 => { c0 with resolving := c0.resolving.erase k }))

/-- `configure(opts)`: set `allowOverride` from the options and default
the strategy to `lastWins` when overriding is allowed, `error` otherwise. -/
def configure (c : Container) (o : StartOptions) : Container :=
  { c with
    allowOverride := o.allowOverride,
    overrideStrategy := o.overrideStrategy.getD (if o.allowOverride then .lastWins else .error) }

/-- The container after `setProvider` succeeds: the inner map for the
identifier (fresh when absent) gains the provider under its qualifier. -/
def setProviderResult (c : Container) (p : Provider) : Container :=
  { c with providers :=
      alSet c.providers p.id (alSet ((alGet c.providers p.id).getD []) p.qualifier p) }

/-- `setProvider(p)`: insert keyed by (identifier, qualifier); an
existing entry for the exact key is an override conflict unless
overriding is allowed and the strategy is not `error`. -/
def setProvider (c : Container) (p : Provider) : Except Err Container :=
  if (alGet ((alGet c.providers p.id).getD []) p.qualifier).isSome ∧
      (¬ c.allowOverride ∨ c.overrideStrategy = OvStrategy.error) then
    .error (.overrideConflict (keyOf p.id p.qualifier))
  else
    .ok (setProviderResult c p)

/-- `load(mod)`: register a module's providers in order; a conflict
aborts the loop. -/
def loadProviders (c : Container) : List Provider → Except Err Container
  | [] => .ok c
  | p :: ps =>
    match setProvider c p with
    | .error e => .error e
    | .ok c' => loadProviders c' ps

/-- `beginScope()`: append a fresh child container chained to `cid`,
inheriting the override policy; returns the new world and the child's
index. -/
def beginScopeW (w : World) (cid : Nat) : World × Nat :=
  let c := getD w cid
  let nc := configure { parent := some cid }
    { allowOverride := c.allowOverride, overrideStrategy := some c.overrideStrategy }
  ({ w with containers := w.containers ++ [nc] }, w.containers.length)

/-- `tryAutoDispose(obj)`: probe `dispose`, then `close`, then `destroy`;
invoke the first function found.  Returns the logged invocations and
whether the invocation threw. -/
def tryAutoDispose (v : Value) : List Nat × Bool :=
  match v.methods.dispose with
  | some h => ([h.tag], h.throws)
  | none =>
    match v.methods.close with
    | some h => ([h.tag], h.throws)
    | none =>
      match v.methods.destroy with
      | some h => ([h.tag], h.throws)
      | none => ([], false)

/-- Cleanup of one disposal entry: the declared `onClose` hook when
present, otherwise auto-detection. -/
def cleanupOne (d : Disposable) : List Nat × Bool :=
  match d.close with
  | some h => ([h.tag], h.throws)
  | none => tryAutoDispose d.inst

/-- The `shutdown` loop over the (already reversed) disposal list: each
entry's cleanup is invoked inside `try { ... } catch { /* swallow */ }`,
so a thrown error is discarded and the walk continues. -/
def shutdownLoop : List Disposable → List Nat
  | [] => []
  | d :: rest =>
    match cleanupOne d with
    | (evs, _threw) => evs ++ shutdownLoop rest

/-- `shutdown()`: walk the disposal list in reverse creation order, then
clear the disposal list and this container's caches. -/
def shutdown (w : World) (cid : Nat) : World :=
  let c := getD w cid
  let evs := shutdownLoop c.disposables.reverse
  setC { w with events := w.events ++ evs } cid
    { c with disposables := [], singles := [], scopedCache := [] }

/-- `reset()`: hard-clear the container's registry, caches, in-flight
set and disposal list (the override policy is kept). -/
def reset (w : World) (cid : Nat) : World :=
  updateC w cid (fun c =>
    { c with singles := [], providers := [], resolving := [], scopedCache := [], disposables := [] })

/-- `override(id, value, q)`: register a `single` literal provider (with
normal conflict semantics) and seed the value into the root singleton
cache. -/
def overrideOp (w : World) (cid : Nat) (id : CtorId) (v : Value) (q : Option Qualifier) : Except Err World :=
  let p : Provider := { kind := .single, id := id, qualifier := q, useValue := some v }
  match setProvider (getD w cid) p with
  | .error e => .error e
  | .ok c' =>
    let w1 := setC w cid c'
    .ok (updateC w1 (rootOf w1 (cid+1) cid) (fun c0 => { c0 with singles := alSet c0.singles (keyOf id q) v }))

/-- A resolver that never grows or shrinks the container list. -/
def lenPres (res : Resolver) : Prop :=
  ∀ a w id q r w', res a w id q = (r, w') →
    w'.containers.length = w.containers.length

/-- A resolver that, whenever it returns an instance, restores every
container's in-flight resolution set. -/
def resPres (res : Resolver) : Prop :=
  ∀ a w id q v w', res a w id q = (.ok v, w') →
    ∀ j, (getD w' j).resolving = (getD w j).resolving

/-! Concrete fixtures used by counterexamples, code-bug demonstrations
and witnesses. -/

/-- The empty ambient environment: no reflection metadata, no cleanup
methods on any class. -/
def envN : Env := {}

/-- A resolver that always fails (used where a resolver argument is
irrelevant). -/
def nullRes : Resolver := fun _ w _ _ => (.error .outOfFuel, w)

/-- C1 fixture: a `single` class provider registered at the root, and a
scope begun from that root. -/
def C1id : CtorId := ⟨1, "A", true⟩

def C1prov : Provider := { kind := .single, id := C1id, useClass := some C1id }

def C1world : World :=
  (beginScopeW { containers := [{ providers := [(C1id, [(none, C1prov)])] }] } 0).1

/-- C2 fixture: two distinct constructor references that share the
runtime name "Foo", each registered (as `single` literal providers)
under its own identity. -/
def C2id1 : CtorId := ⟨11, "Foo", true⟩

def C2id2 : CtorId := ⟨12, "Foo", true⟩

def C2v1 : Value := ⟨100, 0, {}⟩

def C2v2 : Value := ⟨200, 0, {}⟩

def C2p1 : Provider := { kind := .single, id := C2id1, useValue := some C2v1 }

def C2p2 : Provider := { kind := .single, id := C2id2, useValue := some C2v2 }

def C2world : World :=
  { containers := [{ providers := [(C2id1, [(none, C2p1)]), (C2id2, [(none, C2p2)])] }] }

/-- C3 fixture: a `single` provider with an asynchronous factory. -/
def C3id : CtorId := ⟨1, "A", true⟩

def C3prov : Provider := { kind := .single, id := C3id, useFactory := some ⟨true, .make 7⟩ }

def C3world : World := { containers := [{ providers := [(C3id, [(none, C3prov)])] }] }

/-- C3 witness fixture: an ordinary literal provider. -/
def C3wv : Value := ⟨5, 0, {}⟩

def C3wprov : Provider := { kind := .single, id := C3id, useValue := some C3wv }

def C3wc : Container := { providers := [(C3id, [(none, C3wprov)])] }

/-- C4 fixture: a provider setting both `useValue` and `useClass`, and
one setting no mode at all. -/
def C4id : CtorId := ⟨1, "A", true⟩

def C4v : Value := ⟨100, 0, {}⟩

def C4provBoth : Provider :=
  { kind := .single, id := C4id, useClass := some C4id, useValue := some C4v }

def C4world : World := { containers := [{ providers := [(C4id, [(none, C4provBoth)])] }] }

def C4provNone : Provider := { kind := .single, id := C4id }

/-- C5 fixture: two literal providers for the same key, containers with
the default and the last-wins policies. -/
def C5id : CtorId := ⟨1, "A", true⟩

def C5p1 : Provider := { kind := .single, id := C5id, useValue := some ⟨100, 0, {}⟩ }

def C5p2 : Provider := { kind := .single, id := C5id, useValue := some ⟨200, 0, {}⟩ }

def C5cDefault : Container := {}

def C5c1 : Container := { providers := [(C5id, [(none, C5p1)])] }

/-- C6 fixture: class providers `A` and `B` with explicit dependency
declarations forming the cycle A → B → A. -/
def C6idA : CtorId := ⟨1, "A", true⟩

def C6idB : CtorId := ⟨2, "B", true⟩

def C6pA : Provider := { kind := .single, id := C6idA, useClass := some C6idA, deps := some [C6idB] }

def C6pB : Provider := { kind := .single, id := C6idB, useClass := some C6idB, deps := some [C6idA] }

def C6c : Container := { providers := [(C6idA, [(none, C6pA)]), (C6idB, [(none, C6pB)])] }

/-- C7 fixture: a `single` provider whose factory is asynchronous. -/
def C7id : CtorId := ⟨1, "Conn", true⟩

def C7prov : Provider := { kind := .single, id := C7id, useFactory := some ⟨true, .make 7⟩ }

def C7c : Container := { providers := [(C7id, [(none, C7prov)])] }

/-- C8 fixture: three disposal entries — a throwing declared hook, an
auto-detected `close` method, and an instance with nothing to clean. -/
def C8d1 : Disposable := ⟨"x", ⟨1, 0, {}⟩, some ⟨10, true⟩⟩

def C8d2 : Disposable := ⟨"y", ⟨2, 1, { close := some ⟨20, false⟩ }⟩, none⟩

def C8d3 : Disposable := ⟨"z", ⟨3, 2, {}⟩, none⟩

def C8world : World :=
  { containers := [{ disposables := [C8d1, C8d2, C8d3], singles := [("x", ⟨1, 0, {}⟩)] }] }

/-- C9 fixture: a `scoped` class provider registered at the root. -/
def C9id : CtorId := ⟨1, "RequestCtx", true⟩

def C9prov : Provider := { kind := .scoped, id := C9id, useClass := some C9id }

def C9c : Container := { providers := [(C9id, [(none, C9prov)])] }

/-- C10 fixture: `A` is unregistered but has reflection metadata
declaring a dependency on `B`, which is registered as a `single`. -/
def C10idA : CtorId := ⟨1, "A", true⟩

def C10idB : CtorId := ⟨2, "B", true⟩

def C10env : Env := { meta := fun r => if r = 1 then [C10idB] else [] }

def C10pB : Provider := { kind := .single, id := C10idB, useValue := some ⟨200, 0, {}⟩ }

def C10world : World := { containers := [{ providers := [(C10idB, [(none, C10pB)])] }] }

/-- Key uniqueness of an association list (the `Map` invariant). -/
def nodupKeys {α β : Type} [DecidableEq α] : List (α × β) → Bool
  | [] => true
  | (k, _) :: rest => (alGet rest k).isNone && nodupKeys rest

/-- A well-formed registry: unique identifiers outside, unique
qualifiers inside (what real `Map`s guarantee). -/
def providersWF (c : Container) : Bool :=
  nodupKeys c.providers && c.providers.all (fun e => nodupKeys e.2)

theorem alGet_alSet_self {α β : Type} [DecidableEq α] (l : List (α × β)) (k : α) (v : β) :
    alGet (alSet l k v) k = some v := by
  induction l with
  | nil => simp [alGet, alSet]
  | cons hd tl ih =>
    by_cases h : hd.1 = k
    · simp [alSet, h, alGet]
    · simp [alSet, h, alGet, ih]

theorem alGet_alSet_ne {α β : Type} [DecidableEq α] (l : List (α × β)) (k k' : α) (v : β)
    (h : k ≠ k') : alGet (alSet l k v) k' = alGet l k' := by
  induction l with
  | nil => simp [alGet, alSet, h]
  | cons hd tl ih =>
    by_cases h1 : hd.1 = k
    · simp [alSet, h1, alGet, h]
    · simp [alSet, h1, alGet, ih]

theorem alGet_isSome_alSet {α β : Type} [DecidableEq α] (l : List (α × β)) (k k' : α) (v : β) :
    (alGet (alSet l k v) k').isSome = ((alGet l k').isSome || decide (k = k')) := by
  by_cases h : k = k'
  · subst h; simp [alGet_alSet_self]
  · simp [alGet_alSet_ne l k k' v h, h]

theorem nodupKeys_alSet {α β : Type} [DecidableEq α] (l : List (α × β)) (k : α) (v : β)
    (h : nodupKeys l = true) : nodupKeys (alSet l k v) = true := by
  induction l with
  | nil => simp [alSet, nodupKeys, alGet]
  | cons hd tl ih =>
    simp only [nodupKeys, Bool.and_eq_true] at h
    by_cases h1 : hd.1 = k
    · simp only [alSet, h1, if_pos rfl, nodupKeys, Bool.and_eq_true]
      exact ⟨by rw [← h1]; exact h.1, h.2⟩
    · simp only [alSet, h1, if_neg h1, nodupKeys, Bool.and_eq_true]
      refine ⟨?_, ih h.2⟩
      have hne : k ≠ hd.1 := fun hk => h1 hk.symm
      rw [alGet_alSet_ne tl k hd.1 v hne]
      exact h.1

theorem alGet_mem {α β : Type} [DecidableEq α] {l : List (α × β)} {k : α} {v : β}
    (h : alGet l k = some v) : (k, v) ∈ l := by
  induction l with
  | nil => simp [alGet] at h
  | cons hd tl ih =>
    by_cases h1 : hd.1 = k
    · simp only [alGet, if_pos h1] at h
      injection h with h
      subst h1
      subst h
      simp
    · simp only [alGet, if_neg h1] at h
      exact List.mem_cons_of_mem _ (ih h)

theorem all_alSet {α β : Type} [DecidableEq α] (P : α × β → Bool) (l : List (α × β)) (k : α) (v : β)
    (hl : l.all P = true) (hv : P (k, v) = true) : (alSet l k v).all P = true := by
  induction l with
  | nil => simp [alSet, hv]
  | cons hd tl ih =>
    simp only [List.all_cons, Bool.and_eq_true] at hl
    by_cases h1 : hd.1 = k
    · simp [alSet, h1, hl.2, hv]
    · simp [alSet, h1, hl.1, ih hl.2]

/-- C4 — amended: `instantiate` does not enforce the exactly-one-mode
invariant.  A provider with none of {value, factory, class} fails with
the Invalid-Provider error; when several modes are set there is no
error: `useValue` takes priority over everything, and with `useValue`
absent a `useFactory` makes the `useClass`/`deps` fields irrelevant. -/
theorem C4_provider_shape_amended (env : Env) (res : Resolver) (w : World) (p : Provider) :
    (p.useValue = none → p.useFactory = none → p.useClass = none →
      instantiateWith env res w p = (.error (.invalidProvider (keyOf p.id p.qualifier)), w))
    ∧ (∀ v, p.useValue = some v → instantiateWith env res w p = (.ok (.now v), w))
    ∧ (p.useValue = none → ∀ f, p.useFactory = some f →
      instantiateWith env res w p =
        instantiateWith env res w { p with useClass := none, deps := none }) := by
  refine ⟨?_, ?_, ?_⟩
  · intro h1 h2 h3
    simp [instantiateWith, h1, h2, h3]
  · intro v hv
    simp [instantiateWith, hv]
  · intro h1 f hf
    simp [instantiateWith, h1, hf]

/-- C4 — counterexample to the claim as stated: `C4provBoth` sets both
`useValue` and `useClass` (an inconsistent mode combination), yet
resolving it succeeds with the literal value instead of failing with an
Invalid-Provider-Shape error. -/
theorem C4_multi_mode_cx :
    C4provBoth.useValue.isSome = true ∧ C4provBoth.useClass.isSome = true ∧
    (resolveGet envN 5 false C4world 0 C4id none).1 = .ok C4v := by decide

/-- C4 — witness: the amended theorem applied to a provider with no
construction mode at all. -/
theorem C4_provider_shape_witness :
    instantiateWith envN nullRes { containers := [] } C4provNone =
      (.error (.invalidProvider "A"), { containers := [] }) :=
  (C4_provider_shape_amended envN nullRes { containers := [] } C4provNone).1 rfl rfl rfl

theorem setProvider_ok_shape {c : Container} {p : Provider} {c1 : Container}
    (h : setProvider c p = .ok c1) : c1 = setProviderResult c p := by
  rw [setProvider] at h
  split at h
  · exact absurd h (by simp)
  · simpa using h.symm

theorem nodupKeys_getD_inner {c : Container} {id : CtorId}
    (hall : c.providers.all (fun e => nodupKeys e.2) = true) :
    nodupKeys ((alGet c.providers id).getD []) = true := by
  rcases hg : alGet c.providers id with _ | i
  · simp [nodupKeys]
  · have := List.all_eq_true.mp hall _ (alGet_mem hg)
    simpa using this

theorem setProvider_wf {c : Container} {p : Provider} {c1 : Container}
    (h : setProvider c p = .ok c1) (hwf : providersWF c = true) :
    providersWF c1 = true := by
  rw [setProvider_ok_shape h]
  simp only [setProviderResult, providersWF, Bool.and_eq_true] at hwf ⊢
  refine ⟨nodupKeys_alSet _ _ _ hwf.1, ?_⟩
  refine all_alSet _ _ _ _ hwf.2 ?_
  exact nodupKeys_alSet _ _ _ (nodupKeys_getD_inner hwf.2)

/-- Resolving a registered literal-value provider in a one-container
world returns its value. -/
theorem get_value_provider (env : Env) (c : Container) (id : CtorId) (q : Option Qualifier)
    (p : Provider) (v : Value) (fuel n : Nat) (es : List Nat)
    (hp : (alGet c.providers id).bind (fun i => alGet i q) = some p)
    (hv : p.useValue = some v)
    (hsg : alGet c.singles (keyOf id q) = none)
    (hsc : alGet c.scopedCache (keyOf id q) = none)
    (hres : keyOf id q ∉ c.resolving) :
    (resolveGet env (fuel+1) false ⟨[c], n, es⟩ 0 id q).1 = .ok v := by
  rw [resolveGet]
  simp only [getD, List.getD_cons_zero, hsg, hsc, getProviderIn, hp, instantiateWith, hv, hres,
    if_false, ite_false]

/-- C5: registering a second provider for the same (identifier,
qualifier) fails with the Override-Conflict error naming the key unless
overriding is allowed with the last-wins strategy; in that case the
second provider silently replaces the first: it wins the exact-key
lookup, registry well-formedness (one entry per key) is preserved, and
a subsequent `get` reflects the second provider's construction. -/
theorem C5_override_policy (c : Container) (p1 p2 : Provider) (c1 : Container)
    (h1 : setProvider c p1 = .ok c1)
    (hid : p2.id = p1.id) (hq : p2.qualifier = p1.qualifier) :
    (¬ (c.allowOverride = true ∧ c.overrideStrategy = OvStrategy.lastWins) →
      setProvider c1 p2 = .error (.overrideConflict (keyOf p1.id p1.qualifier)))
    ∧ ((c.allowOverride = true ∧ c.overrideStrategy = OvStrategy.lastWins) →
      ∃ c2, setProvider c1 p2 = .ok c2
        ∧ (alGet c2.providers p2.id).bind (fun inner => alGet inner p2.qualifier) = some p2
        ∧ (providersWF c = true → providersWF c2 = true)
        ∧ (∀ env n es v fuel, p2.useValue = some v →
            alGet c.singles (keyOf p1.id p1.qualifier) = none →
            alGet c.scopedCache (keyOf p1.id p1.qualifier) = none →
            keyOf p1.id p1.qualifier ∉ c.resolving →
            (resolveGet env (fuel+1) false ⟨[c2], n, es⟩ 0 p2.id p2.qualifier).1 = .ok v)) := by
  have hshape := setProvider_ok_shape h1
  have hprov : c1.providers
      = alSet c.providers p1.id (alSet ((alGet c.providers p1.id).getD []) p1.qualifier p1) := by
    rw [hshape]; rfl
  have hallow : c1.allowOverride = c.allowOverride := by rw [hshape]; rfl
  have hstrat : c1.overrideStrategy = c.overrideStrategy := by rw [hshape]; rfl
  have hsing : c1.singles = c.singles := by rw [hshape]; rfl
  have hscop : c1.scopedCache = c.scopedCache := by rw [hshape]; rfl
  have hresv : c1.resolving = c.resolving := by rw [hshape]; rfl
  have hinner : alGet c1.providers p2.id
      = some (alSet ((alGet c.providers p1.id).getD []) p1.qualifier p1) := by
    rw [hprov, hid]; exact alGet_alSet_self _ _ _
  have hfound : (alGet ((alGet c1.providers p2.id).getD []) p2.qualifier).isSome = true := by
    rw [hinner]
    simp only [Option.getD_some, hq]
    rw [alGet_alSet_self]
    rfl
  constructor
  · intro hno
    have hcondT : (alGet ((alGet c1.providers p2.id).getD []) p2.qualifier).isSome
        ∧ (¬ c1.allowOverride ∨ c1.overrideStrategy = OvStrategy.error) := by
      refine ⟨hfound, ?_⟩
      by_cases ha : c.allowOverride = true
      · right
        rcases hcs : c.overrideStrategy with _ | _
        · rw [hstrat, hcs]
        · exact absurd ⟨ha, hcs⟩ hno
      · left
        rw [hallow]
        simpa using ha
    rw [setProvider, if_pos hcondT, hid, hq]
  · rintro ⟨ha, hs⟩
    have hcondF : ¬ ((alGet ((alGet c1.providers p2.id).getD []) p2.qualifier).isSome
        ∧ (¬ c1.allowOverride ∨ c1.overrideStrategy = OvStrategy.error)) := by
      rintro ⟨-, h | h⟩
      · rw [hallow, ha] at h
        simp at h
      · rw [hstrat, hs] at h
        exact OvStrategy.noConfusion h
    have hok : setProvider c1 p2 = .ok (setProviderResult c1 p2) := by
      rw [setProvider, if_neg hcondF]
    have hlook : (alGet (setProviderResult c1 p2).providers p2.id).bind
        (fun inner => alGet inner p2.qualifier) = some p2 := by
      show (alGet
        (alSet c1.providers p2.id (alSet ((alGet c1.providers p2.id).getD []) p2.qualifier p2))
        p2.id).bind (fun inner => alGet inner p2.qualifier) = some p2
      rw [alGet_alSet_self]
      simp only [Option.some_bind]
      rw [alGet_alSet_self]
    refine ⟨_, hok, hlook, ?_, ?_⟩
    · intro hwf
      exact setProvider_wf hok (setProvider_wf h1 hwf)
    · intro env n es v fuel hv hsg hsc hres
      apply get_value_provider env _ p2.id p2.qualifier p2 v fuel n es hlook hv
      · show alGet c1.singles (keyOf p2.id p2.qualifier) = none
        rw [hsing, hid, hq]; exact hsg
      · show alGet c1.scopedCache (keyOf p2.id p2.qualifier) = none
        rw [hscop, hid, hq]; exact hsc
      · show keyOf p2.id p2.qualifier ∉ c1.resolving
        rw [hresv, hid, hq]; exact hres

/-- C5 — witness: under the default policy, re-registering the same
(identifier, qualifier) fails with the Override-Conflict error naming
the key. -/
theorem C5_override_policy_witness :
    setProvider C5c1 C5p2 = .error (.overrideConflict "A") :=
  (C5_override_policy C5cDefault C5p1 C5p2 C5c1 (by decide) rfl rfl).1 (by decide)

/-- C1 — the code violates the claim: with `A` registered as `single`
at the root, `get(A)` on the root builds instance nonce 0 and caches it
in the root singleton cache, but a following `get(A)` on a scope begun
from that root consults only the scope's own (empty) `singles` map, so
it re-invokes the constructor, returns a distinct instance (nonce 1)
and overwrites the root cache with it. -/
theorem C1_singleton_scope_rebuild :
    (resolveGet envN 9 false C1world 0 C1id none).1 = .ok ⟨1, 0, {}⟩
    ∧ (resolveGet envN 9 false (resolveGet envN 9 false C1world 0 C1id none).2 1 C1id none).1
        = .ok ⟨1, 1, {}⟩
    ∧ (⟨1, 0, {}⟩ : Value) ≠ ⟨1, 1, {}⟩
    ∧ alGet (getD (resolveGet envN 9 false
        (resolveGet envN 9 false C1world 0 C1id none).2 1 C1id none).2 0).singles "A"
        = some ⟨1, 1, {}⟩ := by decide

/-- C2 — counterexample to the claim as stated: `C2id1` and `C2id2` are
distinct constructor references (refs 11 and 12) that render to the
same name "Foo"; both register fine, but after resolving `C2id1`, a
`get` of `C2id2` returns the instance cached for `C2id1` (the singleton
cache is keyed by the rendered string). -/
theorem C2_string_key_collision_cx :
    (resolveGet envN 9 false C2world 0 C2id1 none).1 = .ok C2v1
    ∧ (resolveGet envN 9 false (resolveGet envN 9 false C2world 0 C2id1 none).2 0 C2id2 none).1
        = .ok C2v1
    ∧ C2v1 ≠ C2v2 := by decide

/-- C3 — counterexample to the claim as stated: a synchronous `get` of
an async-factory provider fails with the Sync-Against-Async error, but
the key stays in the in-flight set, so an immediately following
identical `get` spuriously fails with Circular-Dependency. -/
theorem C3_inflight_leak_cx :
    (resolveGet envN 9 false C3world 0 C3id none).1 = .error (.syncAsync "A")
    ∧ (resolveGet envN 9 false (resolveGet envN 9 false C3world 0 C3id none).2 0 C3id none).1
        = .error (.circular "A") := by decide

theorem getD_set_list (l : List Container) (i j : Nat) (c : Container) :
    (l.set i c).getD j {} = if i = j ∧ i < l.length then c else l.getD j {} := by
  induction l generalizing i j with
  | nil => simp
  | cons hd tl ih =>
    cases i with
    | zero =>
      cases j with
      | zero => simp
      | succ j' => simp
    | succ i' =>
      cases j with
      | zero => simp
      | succ j' =>
        simp only [List.set_cons_succ, List.getD_cons_succ, List.length_cons, ih i' j']
        by_cases hij : i' = j'
        · simp [hij, Nat.succ_lt_succ_iff]
        · simp [hij, fun h => hij (Nat.succ_injective h)]

theorem getD_setC (w : World) (i : Nat) (c : Container) (j : Nat) :
    getD (setC w i c) j = if i = j ∧ i < w.containers.length then c else getD w j :=
  getD_set_list w.containers i j c

theorem shutdownLoop_flatMap (l : List Disposable) :
    shutdownLoop l = l.flatMap (fun d => (cleanupOne d).1) := by
  induction l with
  | nil => simp [shutdownLoop]
  | cons d rest ih => simp [shutdownLoop, ih]

/-- C8: `shutdown` appends to the event log exactly the cleanup
invocations of the disposal entries in reverse creation order — for
each entry the declared hook when present, else the first conventional
method among `dispose`, `close`, `destroy` — one cleanup per entry,
with a thrown failure swallowed so every remaining entry's cleanup
still runs (every entry's cleanup appears in the log no matter which
hooks throw); afterwards the disposal list and the container's caches
are cleared. -/
theorem C8_shutdown_spec (w : World) (cid : Nat) :
    (shutdown w cid).events
      = w.events ++ ((getD w cid).disposables.reverse).flatMap (fun d => (cleanupOne d).1)
    ∧ (getD (shutdown w cid) cid).disposables = []
    ∧ (getD (shutdown w cid) cid).singles = []
    ∧ (getD (shutdown w cid) cid).scopedCache = []
    ∧ (∀ d, d ∈ (getD w cid).disposables → ∀ t, t ∈ (cleanupOne d).1 →
        t ∈ (shutdown w cid).events) := by
  have hev : (shutdown w cid).events
      = w.events ++ ((getD w cid).disposables.reverse).flatMap (fun d => (cleanupOne d).1) := by
    simp [shutdown, setC, shutdownLoop_flatMap]
  have hcl : (getD (shutdown w cid) cid).disposables = []
      ∧ (getD (shutdown w cid) cid).singles = []
      ∧ (getD (shutdown w cid) cid).scopedCache = [] := by
    show (getD (setC _ cid _) cid).disposables = []
      ∧ (getD (setC _ cid _) cid).singles = [] ∧ (getD (setC _ cid _) cid).scopedCache = []
    rw [getD_setC]
    split
    · exact ⟨rfl, rfl, rfl⟩
    next hout =>
      have hge : w.containers.length ≤ cid := by
        rcases Nat.lt_or_ge cid w.containers.length with h | h
        · exact absurd ⟨rfl, h⟩ hout
        · exact h
      have : getD { w with events := w.events ++ shutdownLoop (getD w cid).disposables.reverse }
          cid = ({} : Container) := by
        show List.getD w.containers cid {} = {}
        exact List.getD_eq_default _ _ hge
      rw [this]
      exact ⟨rfl, rfl, rfl⟩
  refine ⟨hev, hcl.1, hcl.2.1, hcl.2.2, ?_⟩
  intro d hd t ht
  rw [hev]
  refine List.mem_append_right _ ?_
  exact List.mem_flatMap.mpr ⟨d, List.mem_reverse.mpr hd, ht⟩

/-- C8 — witness: in the concrete fixture the reversed walk first
auto-invokes the `close` method (tag 20), then the declared hook
(tag 10) even though it throws; tag 20 is in the log. -/
theorem C8_shutdown_spec_witness :
    20 ∈ (shutdown C8world 0).events :=
  (C8_shutdown_spec C8world 0).2.2.2.2 C8d2 (by decide) 20 (by decide)

/-- C6: for providers `A` and `B` whose explicit dependency
declarations form the cycle A → B → A (dependencies resolve under the
`none` qualifier, as `instantiate` does), `get(A)` on a container at
rest fails with the Circular-Dependency error naming A's key — at a
fixed recursion depth (any fuel of shape `f+3`), i.e. eagerly, before
the recursion can become infinite. -/
theorem C6_cycle_detected (env : Env) (c : Container) (pA pB : Provider)
    (A B ctA ctB : CtorId) (n f : Nat) (es : List Nat)
    (hpA : (alGet c.providers A).bind (fun i => alGet i none) = some pA)
    (hpB : (alGet c.providers B).bind (fun i => alGet i none) = some pB)
    (hAv : pA.useValue = none) (hAf : pA.useFactory = none)
    (hAc : pA.useClass = some ctA) (hAd : pA.deps = some [B])
    (hBv : pB.useValue = none) (hBf : pB.useFactory = none)
    (hBc : pB.useClass = some ctB) (hBd : pB.deps = some [A])
    (hsA : alGet c.singles (keyOf A none) = none)
    (hscA : alGet c.scopedCache (keyOf A none) = none)
    (hsB : alGet c.singles (keyOf B none) = none)
    (hscB : alGet c.scopedCache (keyOf B none) = none)
    (hr : c.resolving = []) :
    (resolveGet env (f+3) false ⟨[c], n, es⟩ 0 A none).1
      = .error (.circular (keyOf A none)) := by
  by_cases hkk : keyOf B none = keyOf A none
  · simp [resolveGet, getD, setC, updateC, insertStr, resolveDepsWith, instantiateWith,
      getProviderIn, hpA, hpB, hAv, hAf, hAc, hAd, hBv, hBf, hBc, hBd, hr,
      hsA, hscA, hsB, hscB, hkk]
  · simp [resolveGet, getD, setC, updateC, insertStr, resolveDepsWith, instantiateWith,
      getProviderIn, hpA, hpB, hAv, hAf, hAc, hAd, hBv, hBf, hBc, hBd, hr,
      hsA, hscA, hsB, hscB, hkk]

/-- C6 — witness: the fixture cycle A → B → A fails `get(A)` with the
Circular-Dependency error naming A. -/
theorem C6_cycle_detected_witness :
    (resolveGet envN 3 false ⟨[C6c], 0, []⟩ 0 C6idA none).1 = .error (.circular "A") :=
  C6_cycle_detected envN C6c C6pA C6pB C6idA C6idB C6idA C6idB 0 0 []
    rfl rfl rfl rfl rfl rfl rfl rfl rfl rfl rfl rfl rfl rfl rfl

/-- C7: a provider whose factory is asynchronous delivers its outcome
as a promise: the synchronous `get` fails with the Sync-Against-Async
error directing the caller to `getAsync` (whatever the factory body
does), while `getAsync` of the same identifier awaits the promise and
resolves to the built instance. -/
theorem C7_async_sync_mismatch (env : Env) (c : Container) (p : Provider) (id : CtorId)
    (q : Option Qualifier) (fb : FactoryBody) (n f : Nat) (es : List Nat)
    (hp : (alGet c.providers id).bind (fun i => alGet i q) = some p)
    (hv : p.useValue = none) (hf : p.useFactory = some ⟨true, fb⟩)
    (hsg : alGet c.singles (keyOf id q) = none)
    (hsc : alGet c.scopedCache (keyOf id q) = none)
    (hres : keyOf id q ∉ c.resolving) :
    (resolveGet env (f+1) false ⟨[c], n, es⟩ 0 id q).1 = .error (.syncAsync (keyOf id q))
    ∧ (∀ r, fb = .make r →
        (resolveGet env (f+1) true ⟨[c], n, es⟩ 0 id q).1 = .ok ⟨r, n, env.ctorMethods r⟩) := by
  constructor
  · simp only [resolveGet, getD, setC, updateC, List.getD_cons_zero, List.set_cons_zero,
      hp, hv, hf, hsg, hsc, getProviderIn, instantiateWith, hres, if_false, ite_false]
    rcases hrun : runFactoryWith env
        (fun a w' id' q' => resolveGet env f a w' 0 id' q')
        ⟨[{ c with resolving := insertStr c.resolving (keyOf id q) }], n, es⟩ fb with ⟨r', w'⟩
    rcases r' with v' | e'
    · simp
    · simp
  · intro r hfb
    subst hfb
    simp [resolveGet, getD, setC, updateC, hp, hv, hf, hsg, hsc, getProviderIn,
      instantiateWith, runFactoryWith, mkObj, hres]

/-- C7 — witness: the async fixture provider fails synchronous `get`
with Sync-Against-Async and resolves via `getAsync` to the built
instance. -/
theorem C7_async_sync_mismatch_witness :
    (resolveGet envN 1 false ⟨[C7c], 0, []⟩ 0 C7id none).1 = .error (.syncAsync "Conn")
    ∧ (resolveGet envN 1 true ⟨[C7c], 0, []⟩ 0 C7id none).1 = .ok ⟨7, 0, {}⟩ :=
  ⟨(C7_async_sync_mismatch envN C7c C7prov C7id none (.make 7) 0 0 []
      rfl rfl rfl rfl rfl (by decide)).1,
   (C7_async_sync_mismatch envN C7c C7prov C7id none (.make 7) 0 0 []
      rfl rfl rfl rfl rfl (by decide)).2 7 rfl⟩

/-- C9: for an identifier registered `scoped`, a scope begun from the
root starts as a fresh child container (empty caches, empty registry,
empty disposal list, parent link, inherited override policy); the first
resolution in the scope builds an instance and the second returns the
identical instance with the world untouched, while a resolution from an
independently begun second scope builds a distinct instance. -/
theorem C9_scoped_instances (env : Env) (c : Container) (p : Provider) (id ct : CtorId)
    (q : Option Qualifier) (n f1 f2 f3 : Nat) (es : List Nat)
    (hp : (alGet c.providers id).bind (fun i => alGet i q) = some p)
    (hkind : p.kind = .scoped)
    (hv : p.useValue = none) (hf : p.useFactory = none)
    (hc : p.useClass = some ct) (hd : p.deps = none)
    (hm : env.meta ct.ref = []) :
    getD (beginScopeW (beginScopeW ⟨[c], n, es⟩ 0).1 0).1 1
      = { parent := some 0, allowOverride := c.allowOverride,
          overrideStrategy := c.overrideStrategy }
    ∧ (resolveGet env (f1+1) false (beginScopeW (beginScopeW ⟨[c], n, es⟩ 0).1 0).1 1 id q).1
        = .ok ⟨ct.ref, n, env.ctorMethods ct.ref⟩
    ∧ resolveGet env (f2+1) false
        (resolveGet env (f1+1) false (beginScopeW (beginScopeW ⟨[c], n, es⟩ 0).1 0).1 1 id q).2
        1 id q
      = (.ok ⟨ct.ref, n, env.ctorMethods ct.ref⟩,
          (resolveGet env (f1+1) false (beginScopeW (beginScopeW ⟨[c], n, es⟩ 0).1 0).1 1 id q).2)
    ∧ (resolveGet env (f3+1) false
        (resolveGet env (f1+1) false (beginScopeW (beginScopeW ⟨[c], n, es⟩ 0).1 0).1 1 id q).2
        2 id q).1
        = .ok ⟨ct.ref, n+1, env.ctorMethods ct.ref⟩
    ∧ (⟨ct.ref, n, env.ctorMethods ct.ref⟩ : Value) ≠ ⟨ct.ref, n+1, env.ctorMethods ct.ref⟩ := by
  refine ⟨?_, ?_, ?_, ?_, ?_⟩
  · simp [beginScopeW, configure, getD]
  · simp [beginScopeW, configure, resolveGet, getD, setC, updateC, insertStr, instantiateWith,
      constructWith, mkObj, cacheAndTrack, alGet, alSet, getProviderIn,
      hp, hkind, hv, hf, hc, hd, hm]
  · simp [beginScopeW, configure, resolveGet, getD, setC, updateC, insertStr, instantiateWith,
      constructWith, mkObj, cacheAndTrack, alGet, alSet, getProviderIn,
      hp, hkind, hv, hf, hc, hd, hm]
  · simp [beginScopeW, configure, resolveGet, getD, setC, updateC, insertStr, instantiateWith,
      constructWith, mkObj, cacheAndTrack, alGet, alSet, getProviderIn,
      hp, hkind, hv, hf, hc, hd, hm]
  · intro h
    exact Nat.succ_ne_self n (congrArg Value.nonce h).symm

/-- C9 — witness: the scoped fixture resolved inside a fresh scope
yields the instance with nonce 0. -/
theorem C9_scoped_instances_witness :
    (resolveGet envN 1 false (beginScopeW (beginScopeW ⟨[C9c], 0, []⟩ 0).1 0).1 1 C9id none).1
      = .ok ⟨1, 0, {}⟩ :=
  (C9_scoped_instances envN C9c C9prov C9id C9id none 0 0 0 0 []
    rfl rfl rfl rfl rfl rfl rfl).2.1

/-- C10 — amended: a `get`/`getAsync` of an unregistered constructor
with no reflection metadata falls back to direct zero-argument
construction: it returns a fresh instance and leaves the container tree
completely unchanged (nothing cached, no disposable recorded, no
in-flight marking — only the construction counter advances).  When
metadata lists dependencies, resolving those dependencies may itself
change container state (see the counterexample). -/
theorem C10_fallback_frame_amended (env : Env) (c : Container) (id : CtorId)
    (q : Option Qualifier) (a : Bool) (n f : Nat) (es : List Nat)
    (hnp : (alGet c.providers id).bind (fun i => alGet i q) = none)
    (hpar : c.parent = none)
    (hfun : id.isFunction = true)
    (hm : env.meta id.ref = [])
    (hsg : alGet c.singles (keyOf id q) = none)
    (hsc : alGet c.scopedCache (keyOf id q) = none) :
    resolveGet env (f+1) a ⟨[c], n, es⟩ 0 id q
      = (.ok ⟨id.ref, n, env.ctorMethods id.ref⟩, ⟨[c], n+1, es⟩) := by
  simp [resolveGet, getD, getProviderIn, constructWith, mkObj,
    hnp, hpar, hfun, hm, hsg, hsc]

/-- C10 — counterexample to the claim as stated: `A` is unregistered
but carries reflection metadata declaring a dependency on the
registered single `B`; the fallback construction of `A` succeeds, yet
it changes container state — `B` is cached into the singleton cache and
recorded as a disposable. -/
theorem C10_fallback_meta_cx :
    (resolveGet C10env 9 false C10world 0 C10idA none).1 = .ok ⟨1, 0, {}⟩
    ∧ (getD (resolveGet C10env 9 false C10world 0 C10idA none).2 0).singles
        ≠ (getD C10world 0).singles
    ∧ (getD (resolveGet C10env 9 false C10world 0 C10idA none).2 0).disposables ≠ [] := by
  decide

/-- C10 — witness: a fresh unregistered constructor resolved against an
empty container returns a fresh instance and leaves the container
unchanged. -/
theorem C10_fallback_frame_witness :
    resolveGet envN 1 false ⟨[{}], 0, []⟩ 0 ⟨5, "X", true⟩ none
      = (.ok ⟨5, 0, {}⟩, ⟨[{}], 1, []⟩) :=
  C10_fallback_frame_amended envN {} ⟨5, "X", true⟩ none false 0 0 []
    rfl rfl rfl rfl rfl rfl

/-- C2 — amended: the provider registry is keyed by the true
(identifier, qualifier) composite, so two distinct identifiers that
render to the same diagnostic string both register without conflict and
each exact-key lookup returns its own provider; but the instance caches
are keyed by the rendered string, so after resolving the first
identifier, resolving the second returns the instance cached for the
first. -/
theorem C2_key_identity_amended (env : Env) (c : Container) (p1 p2 : Provider)
    (q : Option Qualifier) (v1 v2 : Value) (n f1 f2 : Nat) (es : List Nat)
    (hne : p1.id ≠ p2.id)
    (hcollide : keyOf p1.id q = keyOf p2.id q)
    (h1q : p1.qualifier = q) (h2q : p2.qualifier = q)
    (h1k : p1.kind = .single)
    (h1v : p1.useValue = some v1) (_h2v : p2.useValue = some v2)
    (hg1 : alGet c.providers p1.id = none) (hg2 : alGet c.providers p2.id = none)
    (hsg : alGet c.singles (keyOf p1.id q) = none)
    (hsc : alGet c.scopedCache (keyOf p1.id q) = none)
    (hres : keyOf p1.id q ∉ c.resolving)
    (hpar : c.parent = none) :
    ∃ c2, loadProviders c [p1, p2] = .ok c2
      ∧ (alGet c2.providers p1.id).bind (fun i => alGet i q) = some p1
      ∧ (alGet c2.providers p2.id).bind (fun i => alGet i q) = some p2
      ∧ (resolveGet env (f1+1) false ⟨[c2], n, es⟩ 0 p1.id q).1 = .ok v1
      ∧ (resolveGet env (f2+1) false
          (resolveGet env (f1+1) false ⟨[c2], n, es⟩ 0 p1.id q).2 0 p2.id q).1 = .ok v1 := by
  have hc1 : ¬ ((alGet ((alGet c.providers p1.id).getD []) p1.qualifier).isSome
      ∧ (¬ c.allowOverride ∨ c.overrideStrategy = OvStrategy.error)) := by
    simp [hg1, alGet]
  have hs1 : setProvider c p1 = .ok (setProviderResult c p1) := by
    rw [setProvider, if_neg hc1]
  have h21 : alGet (setProviderResult c p1).providers p2.id = none := by
    show alGet (alSet c.providers p1.id _) p2.id = none
    rw [alGet_alSet_ne _ _ _ _ hne]
    exact hg2
  have hc2 : ¬ ((alGet ((alGet (setProviderResult c p1).providers p2.id).getD []) p2.qualifier).isSome
      ∧ (¬ (setProviderResult c p1).allowOverride
          ∨ (setProviderResult c p1).overrideStrategy = OvStrategy.error)) := by
    simp [h21, alGet]
  have hs2 : setProvider (setProviderResult c p1) p2
      = .ok (setProviderResult (setProviderResult c p1) p2) := by
    rw [setProvider, if_neg hc2]
  have hload : loadProviders c [p1, p2]
      = .ok (setProviderResult (setProviderResult c p1) p2) := by
    simp [loadProviders, hs1, hs2]
  have hlook1 : (alGet (setProviderResult (setProviderResult c p1) p2).providers p1.id).bind
      (fun i => alGet i q) = some p1 := by
    show (alGet (alSet (setProviderResult c p1).providers p2.id _) p1.id).bind
      (fun i => alGet i q) = some p1
    rw [alGet_alSet_ne _ _ _ _ (Ne.symm hne)]
    show (alGet (alSet c.providers p1.id
      (alSet ((alGet c.providers p1.id).getD []) p1.qualifier p1)) p1.id).bind
      (fun i => alGet i q) = some p1
    rw [alGet_alSet_self]
    simp only [Option.some_bind, hg1, Option.getD_none, h1q]
    rw [alGet_alSet_self]
  have hlook2 : (alGet (setProviderResult (setProviderResult c p1) p2).providers p2.id).bind
      (fun i => alGet i q) = some p2 := by
    show (alGet (alSet (setProviderResult c p1).providers p2.id
      (alSet ((alGet (setProviderResult c p1).providers p2.id).getD []) p2.qualifier p2)) p2.id).bind
      (fun i => alGet i q) = some p2
    rw [alGet_alSet_self]
    simp only [Option.some_bind, h21, Option.getD_none, h2q]
    rw [alGet_alSet_self]
  refine ⟨_, hload, hlook1, hlook2, ?_, ?_⟩
  · exact get_value_provider env _ p1.id q p1 v1 f1 n es hlook1 h1v hsg hsc hres
  · simp [resolveGet, getD, setC, updateC, insertStr, instantiateWith, cacheAndTrack, rootOf,
      setProviderResult, getProviderIn, alGet_alSet_self, ← hcollide,
      hlook1, h1v, h1k, hsg, hsc, hres, hpar,
      show (alGet (alSet (alSet c.providers p1.id
        (alSet ((alGet c.providers p1.id).getD []) p1.qualifier p1)) p2.id
        (alSet ((alGet (alSet c.providers p1.id
          (alSet ((alGet c.providers p1.id).getD []) p1.qualifier p1)) p2.id).getD [])
          p2.qualifier p2)) p1.id).bind (fun i => alGet i q) = some p1 from hlook1]

/-- C2 — witness: the amended theorem at the concrete fixture — two
"Foo"-named identifiers with refs 11 and 12, registered without
conflict, and the second `get` returning the first's cached value. -/
theorem C2_key_identity_witness :
    ∃ c2, loadProviders {} [C2p1, C2p2] = .ok c2
      ∧ (alGet c2.providers C2id1).bind (fun i => alGet i none) = some C2p1
      ∧ (alGet c2.providers C2id2).bind (fun i => alGet i none) = some C2p2
      ∧ (resolveGet envN 1 false ⟨[c2], 0, []⟩ 0 C2id1 none).1 = .ok C2v1
      ∧ (resolveGet envN 1 false
          (resolveGet envN 1 false ⟨[c2], 0, []⟩ 0 C2id1 none).2 0 C2id2 none).1 = .ok C2v1 :=
  C2_key_identity_amended envN {} C2p1 C2p2 none C2v1 C2v2 0 0 0 []
    (by decide) rfl rfl rfl rfl rfl rfl rfl rfl rfl rfl (by decide) rfl

theorem erase_insertStr (l : List String) (k : String) (h : k ∉ l) :
    (insertStr l k).erase k = l := by
  simp only [insertStr, if_neg h]
  rw [List.erase_append_right _ h]
  simp

theorem setC_length (w : World) (i : Nat) (c : Container) :
    (setC w i c).containers.length = w.containers.length := by
  simp [setC]

theorem updateC_length (w : World) (i : Nat) (f : Container → Container) :
    (updateC w i f).containers.length = w.containers.length :=
  setC_length w i _

theorem cacheAndTrack_length (w : World) (cid : Nat) (p : Provider) (k : String) (v : Value) :
    (cacheAndTrack w cid p k v).containers.length = w.containers.length := by
  simp only [cacheAndTrack]
  split_ifs <;> simp [updateC, setC]

theorem resolveDepsWith_len {res : Resolver} (hr : lenPres res) (ia : Bool) :
    ∀ (l : List CtorId) (w : World) (r : Except Err (List Value)) (w' : World),
      resolveDepsWith res ia w l = (r, w') →
      w'.containers.length = w.containers.length := by
  intro l
  induction l with
  | nil =>
    intro w r w' h
    injection h with h1 h2
    rw [← h2]
  | cons d ds ih =>
    intro w r w' h
    simp only [resolveDepsWith] at h
    split at h
    next e1 w1 heq =>
      injection h with h1 h2
      rw [← h2]
      exact hr _ _ _ _ _ _ heq
    next v1 w1 heq =>
      split at h
      next e2 w2 heq2 =>
        injection h with h1 h2
        rw [← h2]
        rw [ih _ _ _ heq2, hr _ _ _ _ _ _ heq]
      next vs w2 heq2 =>
        injection h with h1 h2
        rw [← h2]
        rw [ih _ _ _ heq2, hr _ _ _ _ _ _ heq]

theorem runFactoryWith_len {res : Resolver} (hr : lenPres res) (env : Env) :
    ∀ (w : World) (fb : FactoryBody) (r : Except Err Value) (w' : World),
      runFactoryWith env res w fb = (r, w') →
      w'.containers.length = w.containers.length := by
  intro w fb r w' h
  cases fb with
  | const v =>
    injection h with h1 h2
    rw [← h2]
  | make r0 =>
    simp only [runFactoryWith, mkObj] at h
    injection h with h1 h2
    rw [← h2]
  | getThenMake d dq r0 =>
    simp only [runFactoryWith] at h
    split at h
    next e1 w1 heq =>
      injection h with h1 h2
      rw [← h2]
      exact hr _ _ _ _ _ _ heq
    next v1 w1 heq =>
      simp only [mkObj] at h
      injection h with h1 h2
      rw [← h2]
      show w1.containers.length = w.containers.length
      exact hr _ _ _ _ _ _ heq

theorem constructWith_len {res : Resolver} (hr : lenPres res) (env : Env) (ia : Bool) :
    ∀ (w : World) (ct : CtorId) (r : Except Err Value) (w' : World),
      constructWith env res ia w ct = (r, w') →
      w'.containers.length = w.containers.length := by
  intro w ct r w' h
  simp only [constructWith] at h
  split at h
  · simp only [mkObj] at h
    injection h with h1 h2
    rw [← h2]
  · split at h
    next e1 w1 heq =>
      injection h with h1 h2
      rw [← h2]
      exact resolveDepsWith_len hr _ _ _ _ _ heq
    next vs w1 heq =>
      simp only [mkObj] at h
      injection h with h1 h2
      rw [← h2]
      show w1.containers.length = w.containers.length
      exact resolveDepsWith_len hr _ _ _ _ _ heq

theorem instantiateWith_len {res : Resolver} (hr : lenPres res) (env : Env) :
    ∀ (w : World) (p : Provider) (r : Except Err BuildRes) (w' : World),
      instantiateWith env res w p = (r, w') →
      w'.containers.length = w.containers.length := by
  intro w p r w' h
  simp only [instantiateWith] at h
  split at h
  · injection h with h1 h2
    rw [← h2]
  · split at h
    · split at h
      next v1 w1 heq =>
        split at h <;>
          (injection h with h1 h2; rw [← h2]; exact runFactoryWith_len hr env _ _ _ _ heq)
      next e1 w1 heq =>
        split at h <;>
          (injection h with h1 h2; rw [← h2]; exact runFactoryWith_len hr env _ _ _ _ heq)
    · split at h
      · split at h
        · split at h
          next e1 w1 heq =>
            injection h with h1 h2
            rw [← h2]
            exact resolveDepsWith_len hr _ _ _ _ _ heq
          next vs w1 heq =>
            simp only [mkObj] at h
            injection h with h1 h2
            rw [← h2]
            show w1.containers.length = w.containers.length
            exact resolveDepsWith_len hr _ _ _ _ _ heq
        · split at h
          next e1 w1 heq =>
            injection h with h1 h2
            rw [← h2]
            exact constructWith_len hr env false _ _ _ _ heq
          next v1 w1 heq =>
            injection h with h1 h2
            rw [← h2]
            exact constructWith_len hr env false _ _ _ _ heq
      · injection h with h1 h2
        rw [← h2]

theorem resolveGet_len (env : Env) :
    ∀ (fuel : Nat) (a : Bool) (w : World) (cid : Nat) (id : CtorId) (q : Option Qualifier)
      (r : Except Err Value) (w' : World),
      resolveGet env fuel a w cid id q = (r, w') →
      w'.containers.length = w.containers.length := by
  intro fuel
  induction fuel with
  | zero =>
    intro a w cid id q r w' h
    injection h with h1 h2
    rw [← h2]
  | succ fuel ih =>
    intro a w cid id q r w' h
    have hresc : lenPres (fun a w' id' q' => resolveGet env fuel a w' cid id' q') :=
      fun a w0 id0 q0 r0 w0' hh => ih _ _ _ _ _ _ _ hh
    simp only [resolveGet] at h
    split at h
    · injection h with h1 h2; rw [← h2]
    · split at h
      · injection h with h1 h2; rw [← h2]
      · split at h
        · split at h
          · exact constructWith_len hresc env a _ _ _ _ h
          · injection h with h1 h2; rw [← h2]
        · split at h
          · injection h with h1 h2; rw [← h2]
          · split at h
            next e1 w2 heq =>
              injection h with h1 h2
              rw [← h2]
              rw [instantiateWith_len hresc env _ _ _ _ heq, updateC_length]
            next r1 w2 heq =>
              have hlen2 : w2.containers.length = w.containers.length := by
                rw [instantiateWith_len hresc env _ _ _ _ heq, updateC_length]
              split at h
              · split at h
                next e2 =>
                  injection h with h1 h2
                  rw [← h2]
                  exact hlen2
                next v2 =>
                  injection h with h1 h2
                  rw [← h2, updateC_length, cacheAndTrack_length]
                  exact hlen2
              · injection h with h1 h2
                rw [← h2]
                exact hlen2
            next v1 w2 heq =>
              have hlen2 : w2.containers.length = w.containers.length := by
                rw [instantiateWith_len hresc env _ _ _ _ heq, updateC_length]
              injection h with h1 h2
              rw [← h2, updateC_length, cacheAndTrack_length]
              exact hlen2

theorem getD_resolving_updateC {w : World} {i : Nat} {f : Container → Container}
    (hf : ∀ c, (f c).resolving = c.resolving) (j : Nat) :
    (getD (updateC w i f) j).resolving = (getD w j).resolving := by
  unfold updateC
  rw [getD_setC]
  split
  next hc => rw [hf, hc.1]
  next => rfl

theorem getD_resolving_upd_singles (w : World) (i : Nat) (k : String) (v : Value) (j : Nat) :
    (getD (updateC w i (fun c => { c with singles := alSet c.singles k v })) j).resolving
      = (getD w j).resolving := by
  apply getD_resolving_updateC
  intro c
  rfl

theorem getD_resolving_upd_scoped (w : World) (i : Nat) (k : String) (v : Value) (j : Nat) :
    (getD (updateC w i (fun c => { c with scopedCache := alSet c.scopedCache k v })) j).resolving
      = (getD w j).resolving := by
  apply getD_resolving_updateC
  intro c
  rfl

theorem getD_resolving_upd_disp (w : World) (i : Nat) (d : Disposable) (j : Nat) :
    (getD (updateC w i (fun c => { c with disposables := c.disposables ++ [d] })) j).resolving
      = (getD w j).resolving := by
  apply getD_resolving_updateC
  intro c
  rfl

theorem cacheAndTrack_resolving (w : World) (cid : Nat) (p : Provider) (k : String) (v : Value)
    (j : Nat) :
    (getD (cacheAndTrack w cid p k v) j).resolving = (getD w j).resolving := by
  simp only [cacheAndTrack]
  split_ifs <;>
    simp only [getD_resolving_upd_singles, getD_resolving_upd_scoped, getD_resolving_upd_disp]

theorem resolveDepsWith_resv {res : Resolver} (hres : resPres res) (ia : Bool) :
    ∀ (l : List CtorId) (w : World) (vs : List Value) (w' : World),
      resolveDepsWith res ia w l = (.ok vs, w') →
      ∀ j, (getD w' j).resolving = (getD w j).resolving := by
  intro l
  induction l with
  | nil =>
    intro w vs w' h j
    injection h with h1 h2
    rw [← h2]
  | cons d ds ih =>
    intro w vs w' h j
    simp only [resolveDepsWith] at h
    split at h
    next e1 w1 heq =>
      injection h with h1 h2
      exact Except.noConfusion h1
    next v1 w1 heq =>
      split at h
      next e2 w2 heq2 =>
        injection h with h1 h2
        exact Except.noConfusion h1
      next vs2 w2 heq2 =>
        injection h with h1 h2
        rw [← h2]
        rw [ih _ _ _ heq2 j, hres _ _ _ _ _ _ heq j]

theorem runFactoryWith_resv {res : Resolver} (hres : resPres res) (env : Env) :
    ∀ (w : World) (fb : FactoryBody) (v : Value) (w' : World),
      runFactoryWith env res w fb = (.ok v, w') →
      ∀ j, (getD w' j).resolving = (getD w j).resolving := by
  intro w fb v w' h j
  cases fb with
  | const v0 =>
    injection h with h1 h2
    rw [← h2]
  | make r0 =>
    simp only [runFactoryWith, mkObj] at h
    injection h with h1 h2
    rw [← h2]
    rfl
  | getThenMake d dq r0 =>
    simp only [runFactoryWith] at h
    split at h
    next e1 w1 heq =>
      injection h with h1 h2
      exact Except.noConfusion h1
    next v1 w1 heq =>
      simp only [mkObj] at h
      injection h with h1 h2
      rw [← h2]
      show (getD w1 j).resolving = (getD w j).resolving
      exact hres _ _ _ _ _ _ heq j

theorem constructWith_resv {res : Resolver} (hres : resPres res) (env : Env) (ia : Bool) :
    ∀ (w : World) (ct : CtorId) (v : Value) (w' : World),
      constructWith env res ia w ct = (.ok v, w') →
      ∀ j, (getD w' j).resolving = (getD w j).resolving := by
  intro w ct v w' h j
  simp only [constructWith] at h
  split at h
  · simp only [mkObj] at h
    injection h with h1 h2
    rw [← h2]
    rfl
  · split at h
    next e1 w1 heq =>
      injection h with h1 h2
      exact Except.noConfusion h1
    next vs w1 heq =>
      simp only [mkObj] at h
      injection h with h1 h2
      rw [← h2]
      show (getD w1 j).resolving = (getD w j).resolving
      exact resolveDepsWith_resv hres ia _ _ _ _ heq j

theorem instantiateWith_resv {res : Resolver} (hres : resPres res) (env : Env) :
    ∀ (w : World) (p : Provider) (b : BuildRes) (w' : World),
      instantiateWith env res w p = (.ok b, w') →
      (∀ e, b ≠ BuildRes.later (.error e)) →
      ∀ j, (getD w' j).resolving = (getD w j).resolving := by
  intro w p b w' h hb j
  simp only [instantiateWith] at h
  split at h
  · injection h with h1 h2
    rw [← h2]
  · split at h
    · split at h
      next v1 w1 heq =>
        split at h <;>
          (injection h with h1 h2; rw [← h2]; exact runFactoryWith_resv hres env _ _ _ _ heq j)
      next e1 w1 heq =>
        split at h
        · injection h with h1 h2
          injection h1 with h1
          exact absurd h1.symm (hb e1)
        · injection h with h1 h2
          exact Except.noConfusion h1
    · split at h
      · split at h
        · split at h
          next e1 w1 heq =>
            injection h with h1 h2
            exact Except.noConfusion h1
          next vs w1 heq =>
            simp only [mkObj] at h
            injection h with h1 h2
            rw [← h2]
            show (getD w1 j).resolving = (getD w j).resolving
            exact resolveDepsWith_resv hres false _ _ _ _ heq j
        · split at h
          next e1 w1 heq =>
            injection h with h1 h2
            exact Except.noConfusion h1
          next v1 w1 heq =>
            injection h with h1 h2
            rw [← h2]
            exact constructWith_resv hres env false _ _ _ _ heq j
      · injection h with h1 h2
        exact Except.noConfusion h1

theorem finish_resolving (w w2 : World) (cid : Nat) (k : String) (p : Provider) (v : Value)
    (j : Nat)
    (hmem : k ∉ (getD w cid).resolving)
    (h2 : ∀ j, (getD w2 j).resolving
      = (getD (updateC w cid (fun c0 => { c0 with resolving := insertStr c0.resolving k })) j).resolving)
    (hlen : w2.containers.length = w.containers.length) :
    (getD (updateC (cacheAndTrack w2 cid p k v) cid
      (fun c0 => { c0 with resolving := c0.resolving.erase k })) j).resolving
      = (getD w j).resolving := by
  unfold updateC
  rw [getD_setC]
  split
  next hc =>
    show ((getD (cacheAndTrack w2 cid p k v) cid)).resolving.erase k = (getD w j).resolving
    rw [cacheAndTrack_resolving, h2 cid]
    have hb : cid < w.containers.length := by
      have hh := hc.2
      rwa [cacheAndTrack_length, hlen] at hh
    unfold updateC
    rw [getD_setC, if_pos ⟨rfl, hb⟩]
    show (insertStr (getD w cid).resolving k).erase k = (getD w j).resolving
    rw [erase_insertStr _ _ hmem, hc.1]
  next hc =>
    show (getD (cacheAndTrack w2 cid p k v) j).resolving = (getD w j).resolving
    rw [cacheAndTrack_resolving, h2 j]
    unfold updateC
    rw [getD_setC]
    split
    next hc2 =>
      exfalso
      apply hc
      refine ⟨hc2.1, ?_⟩
      rw [cacheAndTrack_length, hlen]
      exact hc2.2
    next hc2 => rfl

/-- C3 — amended: when `get` or `getAsync` completes by returning an
instance, every container's in-flight resolution set is exactly what it
was before the call (in particular the resolved key is no longer marked
in-flight).  When the call propagates an error the key can remain
marked, and an immediately following identical call then fails with
Circular-Dependency (see the counterexample). -/
theorem C3_inflight_unmark_amended (env : Env) :
    ∀ (fuel : Nat) (a : Bool) (w : World) (cid : Nat) (id : CtorId) (q : Option Qualifier)
      (v : Value) (w' : World),
      resolveGet env fuel a w cid id q = (.ok v, w') →
      ∀ j, (getD w' j).resolving = (getD w j).resolving := by
  intro fuel
  induction fuel with
  | zero =>
    intro a w cid id q v w' h
    injection h with h1 h2
    exact Except.noConfusion h1
  | succ fuel ih =>
    intro a w cid id q v w' h j
    have hresc : resPres (fun a w' id' q' => resolveGet env fuel a w' cid id' q') :=
      fun a w0 id0 q0 v0 w0' hh => ih _ _ _ _ _ _ _ hh
    have hlenc : lenPres (fun a w' id' q' => resolveGet env fuel a w' cid id' q') :=
      fun a w0 id0 q0 r0 w0' hh => resolveGet_len env fuel _ _ _ _ _ _ _ hh
    simp only [resolveGet] at h
    split at h
    · injection h with h1 h2
      rw [← h2]
    · split at h
      · injection h with h1 h2
        rw [← h2]
      · split at h
        · split at h
          · exact constructWith_resv hresc env a _ _ _ _ h j
          · injection h with h1 h2
            exact Except.noConfusion h1
        · split at h
          · injection h with h1 h2
            exact Except.noConfusion h1
          next hmem =>
            split at h
            next e1 w2 heq =>
              injection h with h1 h2
              exact Except.noConfusion h1
            next r1 w2 heq =>
              split at h
              · split at h
                next e2 =>
                  injection h with h1 h2
                  exact Except.noConfusion h1
                next v2 =>
                  injection h with h1 h2
                  rw [← h2]
                  refine finish_resolving w w2 cid (keyOf id q) _ v2 j hmem ?_ ?_
                  · exact instantiateWith_resv hresc env _ _ _ _ heq
                      (fun e hh => by injection hh with hh2; exact Except.noConfusion hh2)
                  · rw [instantiateWith_len hlenc env _ _ _ _ heq, updateC_length]
              · injection h with h1 h2
                exact Except.noConfusion h1
            next v1 w2 heq =>
              injection h with h1 h2
              rw [← h2]
              refine finish_resolving w w2 cid (keyOf id q) _ v1 j hmem ?_ ?_
              · exact instantiateWith_resv hresc env _ _ _ _ heq
                  (fun e hh => by exact BuildRes.noConfusion hh)
              · rw [instantiateWith_len hlenc env _ _ _ _ heq, updateC_length]

/-- C3 — witness: a successful `get` of a literal single provider
leaves the in-flight set of the container as it found it. -/
theorem C3_inflight_unmark_witness :
    (getD (resolveGet envN 1 false ⟨[C3wc], 0, []⟩ 0 C3id none).2 0).resolving
      = (getD ⟨[C3wc], 0, []⟩ 0).resolving :=
  C3_inflight_unmark_amended envN 1 false ⟨[C3wc], 0, []⟩ 0 C3id none C3wv
    (resolveGet envN 1 false ⟨[C3wc], 0, []⟩ 0 C3id none).2 (by decide) 0

end Koinish

